import Mathlib

/-!
# A verification model of tangofs

Shallow embedding of the core of the `tangofs` repository: the lazily
materialized dictionary layer (`tangodict.py`, class `AbstractTangoDict`
and its concrete variants) and the FUSE operation layer (`tangofs.py`,
class `TangoFS`) with its `tmp` pending-operation overlay.

Python byte strings are modelled as `List Char` (`Bytes`); a Tango
property value (a list of lines) as `List Bytes` (`Lines`).  Backing
store (Tango database) interactions are made explicit: every operation
returns, besides its result and the successor state, the list of
backing-store calls (`DbCall`) it performed.  Python exceptions are an
explicit `PyExc` value; `FuseOSError(...)` results are `Err.enoent` etc.
-/

namespace TangoFS

abbrev Bytes := List Char
abbrev Lines := List Bytes

/-- Python whitespace set used by `str.strip()` (space, tab, newline,
carriage return, vertical tab, form feed). -/
def isPyWs (c : Char) : Bool :=
  c = ' ' || c = '\t' || c = '\n' || c = '\r' || c = '\x0b' || c = '\x0c'

/-- `s.lstrip()`. -/
def lstrip (s : Bytes) : Bytes := s.dropWhile isPyWs

/-- `s.rstrip()`. -/
def rstrip (s : Bytes) : Bytes := (s.reverse.dropWhile isPyWs).reverse

/-- Python `s.strip()`. -/
def pyStrip (s : Bytes) : Bytes := rstrip (lstrip s)

/-- Python `s.split("\n")`: splits on every newline; `"".split("\n") = [""]`. -/
def splitNl : Bytes → Lines
  | [] => [[]]
  | c :: rest =>
    if c = '\n' then [] :: splitNl rest
    else
      match splitNl rest with
      | l :: ls => (c :: l) :: ls
      | [] => [[c]]

/-- Python `"\n".join(lines)`. -/
def joinNl : Lines → Bytes
  | [] => []
  | [l] => l
  | l :: ls => l ++ '\n' :: joinNl ls

theorem splitNl_ne_nil (s : Bytes) : splitNl s ≠ [] := by
  match s with
  | [] => simp [splitNl]
  | c :: rest =>
    simp only [splitNl]
    split
    · simp
    · cases h : splitNl rest with
      | nil => simp
      | cons l ls => simp

theorem joinNl_cons_of_ne_nil (x : Bytes) (L : Lines) (h : L ≠ []) :
    joinNl (x :: L) = x ++ '\n' :: joinNl L := by
  cases L with
  | nil => exact absurd rfl h
  | cons l ls => rfl

/-- Splitting on newlines and joining with newlines is the identity:
`"\n".join(s.split("\n")) == s`. -/
theorem joinNl_splitNl (s : Bytes) : joinNl (splitNl s) = s := by
  induction s with
  | nil => rfl
  | cons c rest ih =>
    simp only [splitNl]
    split
    · rename_i hc
      rw [joinNl_cons_of_ne_nil _ _ (splitNl_ne_nil rest), ih]
      simp [hc]
    · cases h : splitNl rest with
      | nil => exact absurd h (splitNl_ne_nil rest)
      | cons l ls =>
        rw [h] at ih
        cases ls with
        | nil => simpa [joinNl] using ih
        | cons l' ls' =>
          simp only [joinNl] at ih ⊢
          simpa using ih

/-- Python's `str.strip` followed by split/join round trip:
`"\n".join(data.strip().split("\n")) = data.strip()`. -/
theorem joinNl_splitNl_strip (data : Bytes) :
    joinNl (splitNl (pyStrip data)) = pyStrip data :=
  joinNl_splitNl _

/-! ## The dictionary layer (`tangodict.py`)

`AbstractTangoDict` keeps a cache mapping each child name to either the
materialized child object or Python `None` (`Option χ` below, `none`
meaning "name known, child not yet constructed").  The cache class is
`CaselessDictionary` (or `TTLDict` when a TTL is given); those two
modules are part of the repository but are not under `src/`.

Modelled from the spec: the Cache Store (`CaselessDictionary`) is "a
per-node mapping from child name to child node or 'not yet materialized'
sentinel" with case-insensitive name comparison; we model it as an
insertion-ordered association list whose key lookup compares names
case-insensitively (Python `str.lower`), storing names as given.  TTL
expiry is real time and is outside this model (the FUSE layer
instantiates `TangoDict()` with `ttl=None`, i.e. the un-timed cache).
-/

/-- Case-insensitive comparison key (`str.lower`), mapped over the
character list. -/
def lc (s : String) : String := String.mk (s.toList.map Char.toLower)

structure TDict (χ : Type) where
  cache : List (String × Option χ)
deriving Repr, DecidableEq

/-- The stored child names, in cache order (`self._cache.keys()`). -/
def cacheKeys {χ} (d : TDict χ) : List String := d.cache.map (·.1)

/-- `name in self._cache` (case-insensitive). -/
def cacheMem {χ} (d : TDict χ) (name : String) : Bool :=
  d.cache.any (fun e => lc e.1 == lc name)

/-- `self._cache.get(name)`: `none` = absent, `some v` = the stored slot. -/
def cacheGet {χ} (d : TDict χ) (name : String) : Option (Option χ) :=
  (d.cache.find? (fun e => lc e.1 == lc name)).map (·.2)

/-- `self._cache[name] = v` (replace the caselessly-matching entry, else append). -/
def cacheSet {χ} (d : TDict χ) (name : String) (v : Option χ) : TDict χ :=
  if cacheMem d name then
    ⟨d.cache.map (fun e => if lc e.1 == lc name then (e.1, v) else e)⟩
  else
    ⟨d.cache ++ [(name, v)]⟩

/-- Keep the first occurrence of each (caselessly equal) name, preserving
order: the key set of `dict((str(name), None) for name in items)` held in
a caseless dictionary. -/
def dedupCaseless (seen : List String) : List String → List String
  | [] => []
  | n :: rest =>
    if lc n ∈ seen then dedupCaseless seen rest
    else n :: dedupCaseless (lc n :: seen) rest

/-- `AbstractTangoDict.refresh` (tangodict.py lines 59-65, `recurse=False`):
`self._cache = self._dict_class(**dict((str(name), None) for name in items))`
— replace the whole cache by a fresh name set fetched from the backing
store, with *every* slot set to the unmaterialized sentinel `None`.  The
previous cache (`d`) is discarded unread. -/
def refresh {χ} (items : List String) (d : TDict χ) : TDict χ :=
  ⟨(dedupCaseless [] items).map (fun n => (n, none))⟩

inductive PyExc
  | keyError
  | typeError
  | attributeError
  | devFailed
deriving Repr, DecidableEq

/-- `AbstractTangoDict.__getitem__` (tangodict.py lines 99-111):

```
if not self._cache: self.refresh()
if name not in self._cache: raise KeyError(...)
item = self._cache.get(name)
if item is None:
    item = self.make_child(name)
    self._cache[name] = item
return item
```

`items` is the authoritative child-name list the backing store would
return on `get_items_from_db` (one backing-store call, counted by the
returned `Nat`); `make` is `make_child`, which can legitimately return
Python `None` (e.g. `DeviceDict.make_child` for an unreachable device),
hence `Option χ`.  Result `Except.ok` carries the returned object
(possibly `None`). -/
def getitem {χ} (items : List String) (make : String → Option χ)
    (d : TDict χ) (name : String) : Except PyExc (Option χ) × TDict χ × Nat :=
  let p := if d.cache.isEmpty then (refresh items d, 1) else (d, 0)
  let d1 := p.1
  let calls := p.2
  if cacheMem d1 name then
    match cacheGet d1 name with
    | some (some c) => (.ok (some c), d1, calls)
    | _ =>
      let c := make name
      (.ok c, cacheSet d1 name c, calls)
  else
    (.error .keyError, d1, calls)

/-- `AbstractTangoDict.__iter__` (tangodict.py lines 119-122):
`iter(sorted(self._cache.keys()))` after refreshing an empty cache.
Returns the (possibly refreshed) dict as well and counts db calls. -/
def iterKeys {χ} (items : List String) (d : TDict χ) :
    List String × TDict χ × Nat :=
  let p := if d.cache.isEmpty then (refresh items d, 1) else (d, 0)
  (List.insertionSort (· ≤ ·) (cacheKeys p.1), p.1, p.2)

/-- `AbstractTangoDict.keys` (tangodict.py lines 124-127):
`self._cache.keys()` after refreshing an empty cache — *no* sorting. -/
def dictKeys {χ} (items : List String) (d : TDict χ) :
    List String × TDict χ × Nat :=
  let p := if d.cache.isEmpty then (refresh items d, 1) else (d, 0)
  (cacheKeys p.1, p.1, p.2)

/-! ## The FUSE operation layer (`tangofs.py`, class `TangoFS`)

`TangoFS` holds the lazily-loaded tree (`self.tree`, a `TangoDict`) and
the pending-operation overlay `self.tmp` (a plain Python dict keyed by
full path).  We model the resolver `_get_path` as a projection onto the
subtree the claims exercise: one scrutinized `PropertiesDict` node (path
`pdPath`, device `pdDev`, cache `pdict`) whose children resolve through
the dictionary-layer `getitem` above (counting backing-store calls), and
an environment `tree` of other, already materialized nodes (command
leaves and collection nodes) reached without backing-store traffic.
`DeviceAttribute` nodes and the percent-decoding of path segments are
orthogonal to the claims and are not part of this projection. -/

/-- Python `path.rsplit("/", 1)[1]` / `os.path.split(path)[1]`. -/
def childOf (p : String) : String :=
  String.mk ((p.toList.reverse.takeWhile (· ≠ '/')).reverse)

/-- Python `path.rsplit("/", 1)[0]` / `os.path.split(path)[0]`. -/
def parentOf (p : String) : String :=
  String.mk (((p.toList.reverse.dropWhile (· ≠ '/')).drop 1).reverse)

def isWordChar (c : Char) : Bool := c.isAlphanum || c = '_'

/-- `SEDTMP = re.compile("sed\\w{6}")` used via `SEDTMP.match(name)`:
the name starts with `sed` followed by at least six word characters. -/
def sedtmpMatch (name : String) : Bool :=
  let cs := name.toList
  cs.take 3 == ['s', 'e', 'd'] && (((cs.drop 3).take 6).length == 6)
    && ((cs.drop 3).take 6).all isWordChar

/-- A value held in `self.tmp`: the pending-creation markers
`SERVER = 0`, `CLASS = 1`, `PROPERTY = 2` (tangofs.py lines 30-32), or a
byte-string buffer (sed temp payloads and precomputed read payloads). -/
inductive TmpVal
  | server
  | cls
  | property
  | buf (data : Bytes)
deriving Repr, DecidableEq

def tmpGet : List (String × TmpVal) → String → Option TmpVal
  | [], _ => none
  | e :: rest, path => if e.1 == path then some e.2 else tmpGet rest path

def tmpSet : List (String × TmpVal) → String → TmpVal → List (String × TmpVal)
  | [], path, v => [(path, v)]
  | e :: rest, path, v =>
    if e.1 == path then (path, v) :: rest else e :: tmpSet rest path v

def tmpRemove : List (String × TmpVal) → String → List (String × TmpVal)
  | [], _ => []
  | e :: rest, path =>
    if e.1 == path then rest else e :: tmpRemove rest path

/-- One backing-store (Tango database) call. -/
inductive DbCall
  | enumProps (dev : String)                      -- get_device_property_list
  | getProp (dev name : String)                   -- get_device_property
  | putProp (dev name : String) (lines : Lines)   -- put_device_property
  | delProp (dev name : String)                   -- delete_device_property
  | renameServer (oldName newName : String)       -- rename_server
deriving Repr, DecidableEq

/-- The backing store's property table for the scrutinized device:
the enumerable name list and the per-property line values.  A `put`
makes the name enumerable; a `get` of an absent name yields `[]`. -/
structure Db where
  propList : List String
  propValues : List (String × Lines)
deriving Repr, DecidableEq

def Db.get (db : Db) (name : String) : Lines :=
  ((db.propValues.find? (·.1 == name)).map (·.2)).getD []

def Db.put (db : Db) (name : String) (v : Lines) : Db :=
  { propList := if db.propList.contains name then db.propList
                else db.propList ++ [name],
    propValues := if db.propValues.any (·.1 == name)
      then db.propValues.map (fun e => if e.1 == name then (name, v) else e)
      else db.propValues ++ [(name, v)] }

def Db.del (db : Db) (name : String) : Db :=
  { propList := db.propList.filter (· != name),
    propValues := db.propValues.filter (·.1 != name) }

/-- A materialized `DeviceProperty` (tangodict.py lines 726-781):
`devicename`, `name` and the lazily loaded `_value`. -/
structure PropObj where
  devicename : String
  name : String
  cachedValue : Option Lines
deriving Repr, DecidableEq

/-- `DeviceProperty.value` getter: return `_value` if cached, else fetch
from the backing store and cache it. -/
def propGetValue (db : Db) (p : PropObj) : Lines × PropObj × List DbCall :=
  match p.cachedValue with
  | some v => (v, p, [])
  | none =>
    let v := db.get p.name
    (v, { p with cachedValue := some v }, [.getProp p.devicename p.name])

/-- `DeviceProperty.value` setter (tangodict.py lines 753-757):
`put_device_property`, then cache the written value (`_history` is also
cleared; histories are not part of this model). -/
def propSetValue (db : Db) (p : PropObj) (v : Lines) :
    Db × PropObj × List DbCall :=
  (db.put p.name v, { p with cachedValue := some v },
   [.putProp p.devicename p.name v])

/-- An already materialized node of the environment tree. -/
inductive FNode
  | cmdLeaf (dev name : String)       -- a DeviceCommand
  | dirNode (keys : List String)      -- a collection node with known children
deriving Repr, DecidableEq

/-- The modelled `TangoFS` state. -/
structure FS where
  tmp : List (String × TmpVal)
  tree : List (String × FNode)
  pdPath : String
  pdDev : String
  pdict : TDict PropObj
  db : Db
deriving Repr, DecidableEq

/-- What `_get_path` resolves a path to. -/
inductive RNode
  | propsDict
  | propLeaf (p : PropObj)
  | cmdLeaf (dev name : String)
  | dirNode (keys : List String)
  | pyNone                            -- a lookup that returned Python None
deriving Repr, DecidableEq

def enumLog (dev : String) (n : Nat) : List DbCall :=
  if n == 0 then [] else [.enumProps dev]

/-- `TangoFS._get_path` restricted as described above: the scrutinized
properties node resolves to `propsDict`; its children resolve through
`getitem` (which may refresh the cache from the backing store); other
paths resolve through the warm environment `tree` (absent ones raise
`KeyError`). -/
def resolve (s : FS) (path : String) : Except PyExc RNode × FS × List DbCall :=
  if path == s.pdPath then (.ok .propsDict, s, [])
  else if parentOf path == s.pdPath then
    match getitem s.db.propList (fun n => some ⟨s.pdDev, n, none⟩)
        s.pdict (childOf path) with
    | (.ok (some p), d1, n) =>
      (.ok (.propLeaf p), { s with pdict := d1 }, enumLog s.pdDev n)
    | (.ok none, d1, n) =>
      (.ok .pyNone, { s with pdict := d1 }, enumLog s.pdDev n)
    | (.error e, d1, n) =>
      (.error e, { s with pdict := d1 }, enumLog s.pdDev n)
  else
    match (s.tree.find? (·.1 == path)).map (·.2) with
    | some (FNode.cmdLeaf d c) => (.ok (.cmdLeaf d c), s, [])
    | some (FNode.dirNode ks) => (.ok (.dirNode ks), s, [])
    | none => (.error .keyError, s, [])

/-- Write a mutated property object back into the properties cache
(Python mutates the shared object in place). -/
def updProp (s : FS) (p : PropObj) : FS :=
  { s with pdict := cacheSet s.pdict p.name (some p) }

/-- A FUSE-call failure: `FuseOSError(ENOENT)` / `FuseOSError(EINVAL)`,
or an uncaught Python exception escaping the handler. -/
inductive Err
  | enoent
  | einval
  | exc (e : PyExc)
deriving Repr, DecidableEq

inductive FMode
  | reg        -- stat.S_IFREG
  | regExec    -- stat.S_IFREG | 755 (command leaves)
  | dir        -- stat.S_IFDIR
deriving Repr, DecidableEq

/-- The fields of `make_node` the claims are about. -/
structure StatN where
  mode : FMode
  size : Nat
deriving Repr, DecidableEq

/-- A value returned by `TangoFS.read` (Python is untyped: the overlay
can hand back a byte string, a pending-creation int marker, or `None`
when control falls off the end of the function). -/
inductive PyVal
  | bytes (b : Bytes)
  | int (n : Nat)
  | pynone
deriving Repr, DecidableEq

def tmpToPy : TmpVal → PyVal
  | .server => .int 0
  | .cls => .int 1
  | .property => .int 2
  | .buf b => .bytes b

/-- `TangoFS.getattr` (tangofs.py lines 78-160), on the modelled node
variants.  `exe` is the loaded command-script template
(`EXE.format(device=..., command=...)`), a presentation detail passed in
as a parameter.  Branches: a resolved `DeviceProperty` produces a
regular file whose size is the joined value and stores that payload in
`tmp`; a resolved `DeviceCommand` likewise with the script text; other
resolved targets are directories.  A failed resolution falls into the
pending-operation branch: if the parent resolves and the path has a
`tmp` entry, a `PROPERTY` marker is *deleted* and a zero-size regular
file returned, a `SERVER` marker yields a directory, anything else a
zero-size regular file; otherwise `FuseOSError(ENOENT)`. -/
def getattr (exe : String → String → Bytes) (s : FS) (path : String) :
    Except Err StatN × FS × List DbCall :=
  match resolve s path with
  | (.ok t, s1, log1) =>
    match t with
    | .propLeaf p =>
      let r := propGetValue s1.db p
      let bytes := joinNl r.1 ++ ['\n']
      let s2 := updProp s1 r.2.1
      (.ok ⟨.reg, bytes.length⟩,
       { s2 with tmp := tmpSet s2.tmp path (.buf bytes) }, log1 ++ r.2.2)
    | .cmdLeaf d c =>
      let e := exe d c
      (.ok ⟨.regExec, e.length⟩,
       { s1 with tmp := tmpSet s1.tmp path (.buf e) }, log1)
    | _ => (.ok ⟨.dir, 0⟩, s1, log1)
  | (.error _, s1, log1) =>
    match resolve s1 (parentOf path) with
    | (.ok _, s2, log2) =>
      match tmpGet s2.tmp path with
      | some .property =>
        (.ok ⟨.reg, 0⟩, { s2 with tmp := tmpRemove s2.tmp path }, log1 ++ log2)
      | some .server => (.ok ⟨.dir, 0⟩, s2, log1 ++ log2)
      | some _ => (.ok ⟨.reg, 0⟩, s2, log1 ++ log2)
      | none => (.error .enoent, s2, log1 ++ log2)
    | (.error _, s2, log2) => (.error .enoent, s2, log1 ++ log2)

/-- `TangoFS.read` (tangofs.py lines 203-222).  A path with a `tmp`
entry returns that entry whole (popping it); otherwise the path is
resolved: command leaves return the full script text, property leaves
the full newline-joined value with a trailing newline, other targets
fall off the end (`None`).  The `size` and `offset` arguments are taken
and ignored, as in the source. -/
def read (exe : String → String → Bytes) (s : FS) (path : String)
    (size offset : Nat) : Except Err PyVal × FS × List DbCall :=
  match tmpGet s.tmp path with
  | some v => (.ok (tmpToPy v), { s with tmp := tmpRemove s.tmp path }, [])
  | none =>
    match resolve s path with
    | (.error .keyError, s1, log) => (.error .enoent, s1, log)
    | (.error e, s1, log) => (.error (.exc e), s1, log)
    | (.ok t, s1, log) =>
      match t with
      | .cmdLeaf d c => (.ok (.bytes (exe d c)), s1, log)
      | .propLeaf p =>
        let r := propGetValue s1.db p
        (.ok (.bytes (joinNl r.1 ++ ['\n'])), updProp s1 r.2.1, log ++ r.2.2)
      | _ => (.ok .pynone, s1, log)

/-- `TangoFS.write` (tangofs.py lines 224-274), on the modelled
branches: a resolved `DeviceProperty` gets `data.strip().split("\n")`
assigned through the value setter (offset 0), or a spliced
re-assignment (nonzero offset); a `KeyError` resolution whose parent is
the properties collection either buffers sed-temp payloads in `tmp` or
creates the property via `PropertiesDict.add` (backing-store put plus a
cache clear).  Returns `len(data)`. -/
def write (s : FS) (path : String) (data : Bytes) (offset : Nat) :
    Except Err Nat × FS × List DbCall :=
  match resolve s path with
  | (.ok (.propLeaf p), s1, log) =>
    if offset ≠ 0 then
      let r := propGetValue s1.db p
      let olddata := joinNl r.1 ++ ['\n']
      let newdata := olddata.take offset ++ data
        ++ olddata.drop (offset + data.length)
      let w := propSetValue s1.db r.2.1 (splitNl (pyStrip newdata))
      (.ok data.length, updProp { s1 with db := w.1 } w.2.1,
       log ++ r.2.2 ++ w.2.2)
    else
      let w := propSetValue s1.db p (splitNl (pyStrip data))
      (.ok data.length, updProp { s1 with db := w.1 } w.2.1, log ++ w.2.2)
  | (.ok _, s1, log) => (.ok data.length, s1, log)
  | (.error .keyError, s1, log) =>
    let prop := childOf path
    match resolve s1 (parentOf path) with
    | (.ok .propsDict, s2, log2) =>
      if sedtmpMatch prop then
        if offset ≠ 0 then
          match tmpGet s2.tmp path with
          | some (.buf olddata) =>
            let newdata := olddata.take offset ++ data
              ++ olddata.drop (offset + data.length)
            (.ok data.length,
             { s2 with tmp := tmpSet s2.tmp path (.buf newdata) }, log ++ log2)
          | some _ => (.error (.exc .typeError), s2, log ++ log2)
          | none => (.error (.exc .keyError), s2, log ++ log2)
        else
          (.ok data.length,
           { s2 with tmp := tmpSet s2.tmp path (.buf data) }, log ++ log2)
      else
        let lines := splitNl (pyStrip data)
        (.ok data.length,
         { s2 with db := s2.db.put prop lines, pdict := ⟨[]⟩ },
         log ++ log2 ++ [.putProp s2.pdDev prop lines])
    | (.ok _, s2, log2) => (.ok data.length, s2, log ++ log2)
    | (.error e, s2, log2) => (.error (.exc e), s2, log ++ log2)
  | (.error e, s1, log) => (.error (.exc e), s1, log)

/-- `TangoFS.create` (tangofs.py lines 276-286): remember the pending
creation in `tmp` — an empty buffer for sed temp names, the `PROPERTY`
marker otherwise.  No backing-store call, no tree access. -/
def create (s : FS) (path : String) : Except Err Nat × FS × List DbCall :=
  if sedtmpMatch (childOf path) then
    (.ok 0, { s with tmp := tmpSet s.tmp path (.buf []) }, [])
  else
    (.ok 0, { s with tmp := tmpSet s.tmp path .property }, [])

/-- `TangoFS.unlink` (tangofs.py lines 288-293):

```
self.tmp.pop(path)
target = self._get_path(path)
if isinstance(target, DeviceProperty):
    target.delete()
```

`pop` without a default raises `KeyError` when the path has no overlay
entry; otherwise the entry is removed and the path resolved (an
exception from resolution propagates); a resolved property is deleted
through its parent (backing-store delete plus cache clear). -/
def unlink (s : FS) (path : String) : Except Err Unit × FS × List DbCall :=
  match tmpGet s.tmp path with
  | none => (.error (.exc .keyError), s, [])
  | some _ =>
    let s1 := { s with tmp := tmpRemove s.tmp path }
    match resolve s1 path with
    | (.error e, s2, log) => (.error (.exc e), s2, log)
    | (.ok (.propLeaf p), s2, log) =>
      (.ok (), { s2 with db := s2.db.del p.name, pdict := ⟨[]⟩ },
       log ++ [.delProp s2.pdDev p.name])
    | (.ok _, s2, log) => (.ok (), s2, log)

/-- File names encode slashes as percent signs (tangofs.py line 171). -/
def encodeSlash (n : String) : String :=
  String.mk (n.toList.map (fun c => if c = '/' then '%' else c))

/-- `TangoFS.readdir` (tangofs.py lines 162-180): a path with a pending
`tmp` entry returns the literal `[".", "."]`; a `DevFailed` from
resolution returns `None`; otherwise the target's `keys()` (cache
order, *not* sorted) with slashes encoded, behind `"."` and `".."`.
`keys()` on a leaf or on `None` raises `AttributeError` (resolution
exceptions other than `DevFailed` also propagate). -/
def readdir (s : FS) (path : String) :
    Except Err (Option (List String)) × FS × List DbCall :=
  if (tmpGet s.tmp path).isSome then (.ok (some [".", "."]), s, [])
  else
    match resolve s path with
    | (.error .devFailed, s1, log) => (.ok none, s1, log)
    | (.error e, s1, log) => (.error (.exc e), s1, log)
    | (.ok t, s1, log) =>
      match t with
      | .propsDict =>
        let r := dictKeys s1.db.propList s1.pdict
        (.ok (some ([".", ".."] ++ r.1.map encodeSlash)),
         { s1 with pdict := r.2.1 }, log ++ enumLog s1.pdDev r.2.2)
      | .dirNode ks =>
        (.ok (some ([".", ".."] ++ ks.map encodeSlash)), s1, log)
      | _ => (.error (.exc .attributeError), s1, log)

/-! ## Rename operations (`tangodict.py`) -/

/-- Result of `DeviceProperty.rename`: the possibly-raised exception,
the property object afterwards, the parent cache, the backing store and
the issued backing-store calls. -/
structure RenameRes where
  raised : Option PyExc
  obj : PropObj
  pdict : TDict PropObj
  db : Db
  log : List DbCall
deriving Repr, DecidableEq

/-- `DeviceProperty.rename` (tangodict.py lines 774-778):

```
if name != self.name:
    self.parent.add({name: self.value})
    self.parent.delete(self.name)
    self.name = name
```

`parent.add` is `PropertiesDict.add` (put_device_property, then clear
the parent cache); `parent.delete` is `PropertiesDict.delete`
(delete_device_property, then clear the parent cache).  `deleteOk`
models whether the backing-store delete succeeds; a failing delete
raises after the add already happened, leaving both names in the store
and `self.name` unchanged. -/
def propRename (dev : String) (p : PropObj) (d : TDict PropObj) (db : Db)
    (newName : String) (deleteOk : Bool) : RenameRes :=
  if newName == p.name then ⟨none, p, d, db, []⟩
  else
    let g := propGetValue db p
    let db1 := db.put newName g.1
    let log1 := g.2.2 ++ [DbCall.putProp dev newName g.1]
    if deleteOk then
      ⟨none, { g.2.1 with name := newName }, ⟨[]⟩, db1.del p.name,
       log1 ++ [DbCall.delProp dev p.name]⟩
    else
      ⟨some .devFailed, g.2.1, ⟨[]⟩, db1, log1 ++ [DbCall.delProp dev p.name]⟩

/-- `ServerDict.rename_instance` (tangodict.py lines 282-285): a single
`rename_server` backing-store call, then a cache clear. -/
def renameInstance {χ} (servername oldname newname : String)
    (cache : TDict χ) : TDict χ × List DbCall :=
  (⟨[]⟩,
   [.renameServer (servername ++ "/" ++ oldname)
      (servername ++ "/" ++ newname)])

/-- `InstanceDict.rename` (tangodict.py lines 334-336):
`self.parent.rename_instance(self.name, name); self.name = name`. -/
def instanceRename {χ} (servername instname newname : String)
    (parentCache : TDict χ) : String × TDict χ × List DbCall :=
  let r := renameInstance servername instname newname parentCache
  (newname, r.1, r.2)

/-! ## Device children and the unreachable-device paths (`DeviceDict`) -/

inductive DevChild
  | propsD
  | attrsD
  | cmdsD
deriving Repr, DecidableEq

/-- `DeviceDict.get_items_from_db` (tangodict.py lines 398-405): ping
the device; on success the three collections, on `DevFailed` (or no
proxy) only `properties`. -/
def deviceChildren (pingOk : Bool) : List String :=
  if pingOk then ["properties", "attributes", "commands"]
  else ["properties"]

/-- `DeviceDict.make_child` (tangodict.py lines 378-396): `properties`
always materializes; `attributes`/`commands` only when the device
answers a ping, otherwise Python `None` is returned (and cached). -/
def deviceMakeChild (pingOk : Bool) (name : String) : Option DevChild :=
  if name == "properties" then some .propsD
  else if name == "attributes" then (if pingOk then some .attrsD else none)
  else if name == "commands" then (if pingOk then some .cmdsD else none)
  else none

/-- `TangoFS.readdir` applied to the `attributes` child of a device
(projection of tangofs.py lines 162-180): `_get_path` runs
`DeviceDict.__getitem__("attributes")` — a `KeyError` from it
propagates, since `readdir` catches only `DevFailed`; a `None` child
makes `target.keys()` raise `AttributeError`; a materialized
`AttributesDict` enumerates through the device proxy (`attrList`;
`none` models `get_attribute_list` raising `DevFailed`, which happens
outside `readdir`'s `try` and also propagates). -/
def readdirAttributes (pingOk : Bool) (attrList : Option (List String))
    (dcache : TDict DevChild) : Except PyExc (List String) :=
  match getitem (deviceChildren pingOk) (deviceMakeChild pingOk)
      dcache "attributes" with
  | (.error e, _, _) => .error e
  | (.ok none, _, _) => .error .attributeError
  | (.ok (some _), _, _) =>
    match attrList with
    | none => .error .devFailed
    | some l => .ok ([".", ".."] ++ l.map encodeSlash)

/-! ## Helper lemmas -/

theorem refresh_entries_none {χ} (items : List String) (d : TDict χ) :
    ∀ e ∈ (refresh items d).cache, e.2 = none := by
  intro e he
  simp only [refresh, List.mem_map] at he
  obtain ⟨n, _, rfl⟩ := he
  rfl

theorem cacheGet_refresh_of_mem {χ} (items : List String) (d : TDict χ)
    (name : String) (h : cacheMem (refresh items d) name = true) :
    cacheGet (refresh items d) name = some none := by
  simp only [cacheMem, List.any_eq_true] at h
  obtain ⟨e, he, hp⟩ := h
  have hs : ((refresh items d).cache.find?
      (fun e => lc e.1 == lc name)).isSome := by
    rw [List.find?_isSome]
    exact ⟨e, he, hp⟩
  obtain ⟨e', he'⟩ := Option.isSome_iff_exists.mp hs
  have : e'.2 = none :=
    refresh_entries_none items d e' (List.mem_of_find?_eq_some he')
  simp [cacheGet, he', this]

theorem tmpGet_tmpSet_self (t : List (String × TmpVal)) (p : String)
    (v : TmpVal) : tmpGet (tmpSet t p v) p = some v := by
  induction t with
  | nil => simp [tmpSet, tmpGet]
  | cons e rest ih =>
    cases he : (e.1 == p) with
    | true => simp [tmpSet, tmpGet, he]
    | false => simp [tmpSet, tmpGet, he, ih]

theorem tmpRemove_tmpSet_self (t : List (String × TmpVal)) (p : String)
    (v : TmpVal) : tmpRemove (tmpSet t p v) p = tmpRemove t p := by
  induction t with
  | nil => simp [tmpSet, tmpRemove]
  | cons e rest ih =>
    cases he : (e.1 == p) with
    | true => simp [tmpSet, tmpRemove, he]
    | false => simp [tmpSet, tmpRemove, he, ih]



/-! ## Concrete states used by counterexamples and witnesses -/

/-- A trivial command-script template (the template text is presentation
glue; no claim depends on its content). -/
def exe0 : String → String → Bytes := fun _ _ => []

/-- A `TangoFS` whose scrutinized properties node holds one materialized
property `host` (value-cache state `cached`), over a backing store that
enumerates `["host"]` with property table `vals`. -/
def c2FS (vals : List (String × Lines)) (cached : Option Lines) : FS :=
  { tmp := [], tree := [],
    pdPath := "/sys/tg_test/1/properties", pdDev := "sys/tg_test/1",
    pdict := ⟨[("host", some ⟨"sys/tg_test/1", "host", cached⟩)]⟩,
    db := ⟨["host"], vals⟩ }

/-- A `TangoFS` with a pending overlay entry `marker` for the path
`/sys/tg_test/1/properties/np` (which does not exist in the tree) and a
warm parent cache. -/
def c4FS (marker : TmpVal) : FS :=
  { tmp := [("/sys/tg_test/1/properties/np", marker)], tree := [],
    pdPath := "/sys/tg_test/1/properties", pdDev := "sys/tg_test/1",
    pdict := ⟨[("host", none)]⟩, db := ⟨["host"], []⟩ }

/-- A `TangoFS` whose properties node has a cold (empty) cache over a
backing store enumerating `l`. -/
def c5FS (l : List String) : FS :=
  { tmp := [], tree := [], pdPath := "/x/properties", pdDev := "dev",
    pdict := ⟨[]⟩, db := ⟨l, []⟩ }

/-- Cold-cache state for the create/unlink sequence. -/
def c7cold : FS :=
  { tmp := [], tree := [], pdPath := "/s/i/C/d/properties", pdDev := "dev",
    pdict := ⟨[]⟩, db := ⟨["host"], []⟩ }

/-- Warm-cache variant of `c7cold`. -/
def c7warm : FS :=
  { tmp := [], tree := [], pdPath := "/s/i/C/d/properties", pdDev := "dev",
    pdict := ⟨[("host", none)]⟩, db := ⟨["host"], []⟩ }

/-! ## C1 — lookup misses and materialization -/

/-- C1, counterexample.  The claim says a lookup of a name missing from
the node's cache triggers a fresh materialization (fetch the child-name
list, construct, insert) with the lookup retried once, failing with
`NotFound` only if the name is still absent after that attempt.  On a
node whose cache is non-empty (`[("a", None)]`) a lookup of `"b"` raises
`KeyError` immediately with **zero** backing-store calls, although `"b"`
*is* in the backing store's list `["a", "b"]` and would be present after
a fresh materialization (`cacheMem` of the refreshed cache is true). -/
theorem c1_counterexample :
    getitem ["a", "b"] (fun _ => some (0 : Nat)) ⟨[("a", none)]⟩ "b"
      = (.error .keyError, ⟨[("a", none)]⟩, 0)
    ∧ cacheMem (refresh ["a", "b"] (⟨[("a", none)]⟩ : TDict Nat)) "b" = true :=
  ⟨rfl, rfl⟩

/-- C1, amended: `__getitem__` refreshes (one backing-store enumeration
call) if and only if the cache is *empty*, and then fails with
`KeyError` iff the name is absent from the refreshed name set; on a
non-empty cache it performs no backing-store enumeration and fails iff
the name is absent from the cached name set — a stale miss is *not*
retried against the backing store. -/
theorem c1_amended {χ : Type} (items : List String) (make : String → Option χ)
    (d : TDict χ) (name : String) :
    (d.cache = [] →
      (getitem items make d name).2.2 = 1
      ∧ ((getitem items make d name).1 = .error .keyError
          ↔ cacheMem (refresh items d) name = false))
    ∧ (d.cache ≠ [] →
      (getitem items make d name).2.2 = 0
      ∧ ((getitem items make d name).1 = .error .keyError
          ↔ cacheMem d name = false)) := by
  constructor
  · intro h
    have hemp : d.cache.isEmpty = true := by simp [h]
    cases hm : cacheMem (refresh items d) name with
    | false => simp [getitem, hemp, hm]
    | true =>
      have hg := cacheGet_refresh_of_mem items d name hm
      simp [getitem, hemp, hm, hg]
  · intro h
    have hemp : d.cache.isEmpty = false := by
      cases hc : d.cache with
      | nil => exact absurd hc h
      | cons e rest => simp [hc]
    cases hm : cacheMem d name with
    | false => simp [getitem, hemp, hm]
    | true =>
      rcases hg : cacheGet d name with _ | v
      · simp [getitem, hemp, hm, hg]
      · cases v with
        | none => simp [getitem, hemp, hm, hg]
        | some c => simp [getitem, hemp, hm, hg]

theorem c1_amended_witness :
    ((⟨[]⟩ : TDict Nat).cache = []
      ∧ (getitem ["a"] (fun _ => some (0 : Nat)) (⟨[]⟩ : TDict Nat) "a").2.2 = 1
      ∧ ((getitem ["a"] (fun _ => some (0 : Nat)) (⟨[]⟩ : TDict Nat) "a").1
            = .error .keyError
          ↔ cacheMem (refresh ["a"] (⟨[]⟩ : TDict Nat)) "a" = false))
    ∧ ((⟨[("a", none)]⟩ : TDict Nat).cache ≠ []
      ∧ (getitem ["a"] (fun _ => some (0 : Nat))
            (⟨[("a", none)]⟩ : TDict Nat) "b").2.2 = 0
      ∧ ((getitem ["a"] (fun _ => some (0 : Nat))
            (⟨[("a", none)]⟩ : TDict Nat) "b").1 = .error .keyError
          ↔ cacheMem (⟨[("a", none)]⟩ : TDict Nat) "b" = false)) :=
  ⟨⟨rfl, (c1_amended ["a"] (fun _ => some 0) ⟨[]⟩ "a").1 rfl⟩,
   ⟨by decide, (c1_amended ["a"] (fun _ => some 0) ⟨[("a", none)]⟩ "b").2
      (by decide)⟩⟩

/-! ## C3 — refresh and materialized children -/

/-- C3, counterexample.  The claim says a refresh retains
already-materialized child objects whose names are still present.  A
node whose cache holds the materialized child `7` under the still-present
name `"a"` is rebuilt by `refresh` as `[("a", None)]`: the child object
is dropped, and the next lookup returns a freshly constructed child
(`99`), not the retained one (`7`). -/
theorem c3_counterexample :
    refresh ["a"] (⟨[("a", some 7)]⟩ : TDict Nat) = ⟨[("a", none)]⟩
    ∧ (getitem ["a"] (fun _ => some (99 : Nat))
        (refresh ["a"] ⟨[("a", some 7)]⟩) "a").1 = .ok (some 99)
    ∧ (Except.ok (some 99) : Except PyExc (Option Nat)) ≠ .ok (some 7) :=
  ⟨rfl, rfl, by simp⟩

/-- C3, amended: `refresh` replaces the cache by the fresh
(caselessly-deduplicated) enumeration with *every* slot set to the
unmaterialized sentinel; previously materialized children are dropped
even when their names are still present, and the next lookup of any
enumerated name re-runs `make_child` instead of reusing the old
object. -/
theorem c3_amended {χ : Type} (items : List String) (make : String → Option χ)
    (d : TDict χ) (name : String)
    (h : cacheMem (refresh items d) name = true) :
    (∀ e ∈ (refresh items d).cache, e.2 = none)
    ∧ cacheKeys (refresh items d) = dedupCaseless [] items
    ∧ (getitem items make (refresh items d) name).1 = .ok (make name) := by
  refine ⟨refresh_entries_none items d, ?_, ?_⟩
  · simp only [cacheKeys, refresh, List.map_map]
    exact List.map_id _
  · have hne : (refresh items d).cache ≠ [] := by
      intro hc
      rw [cacheMem, hc] at h
      simp at h
    have hemp : (refresh items d).cache.isEmpty = false := by
      cases hc : (refresh items d).cache with
      | nil => exact absurd hc hne
      | cons e rest => simp [hc]
    have hg := cacheGet_refresh_of_mem items d name h
    simp [getitem, hemp, h, hg]

theorem c3_amended_witness :
    cacheMem (refresh ["a"] (⟨[("a", some 7)]⟩ : TDict Nat)) "a" = true
    ∧ ((∀ e ∈ (refresh ["a"] (⟨[("a", some 7)]⟩ : TDict Nat)).cache, e.2 = none)
      ∧ cacheKeys (refresh ["a"] (⟨[("a", some 7)]⟩ : TDict Nat))
          = dedupCaseless [] ["a"]
      ∧ (getitem ["a"] (fun _ => some (99 : Nat))
          (refresh ["a"] ⟨[("a", some 7)]⟩) "a").1 = .ok (some 99)) :=
  ⟨rfl, c3_amended ["a"] (fun _ => some 99) ⟨[("a", some 7)]⟩ "a" rfl⟩

/-! ## C5 — listing order and duplicates -/

theorem dedupCaseless_pairwise (l : List String) :
    ∀ seen : List String,
      (dedupCaseless seen l).Pairwise (fun a b => lc a ≠ lc b)
      ∧ ∀ x ∈ dedupCaseless seen l, lc x ∉ seen := by
  induction l with
  | nil => intro seen; simp [dedupCaseless]
  | cons n rest ih =>
    intro seen
    by_cases hseen : lc n ∈ seen
    · simpa [dedupCaseless, hseen] using ih seen
    · simp only [dedupCaseless, if_neg hseen]
      refine ⟨List.Pairwise.cons ?_ (ih (lc n :: seen)).1, ?_⟩
      · intro b hb
        have hnb := (ih (lc n :: seen)).2 b hb
        intro hcontra
        exact hnb (by rw [← hcontra]; exact List.mem_cons_self _ _)
      · intro x hx
        rcases List.mem_cons.mp hx with rfl | hx'
        · exact hseen
        · have := (ih (lc n :: seen)).2 x hx'
          exact fun hmem => this (List.mem_cons_of_mem _ hmem)

theorem dedupCaseless_nodup (l : List String) : (dedupCaseless [] l).Nodup :=
  ((dedupCaseless_pairwise l []).1).imp (fun h heq => h (by rw [heq]))

theorem cacheKeys_refresh {χ} (items : List String) (d : TDict χ) :
    cacheKeys (refresh items d) = dedupCaseless [] items := by
  simp only [cacheKeys, refresh, List.map_map]
  exact List.map_id _

/-- C5, counterexample.  The claim says directory listings are sorted
case-insensitively and identical across refreshes regardless of
backing-store enumeration order.  `readdir` on the same properties node
over the same name *set* returns `[".", "..", "b", "a"]` when the
backing store enumerates `["b", "a"]` and `[".", "..", "a", "b"]` when
it enumerates `["a", "b"]`: the listing follows cache (enumeration)
order, is not sorted, and differs across refreshes. -/
theorem c5_counterexample :
    (readdir (c5FS ["b", "a"]) "/x/properties").1
      = .ok (some [".", "..", "b", "a"])
    ∧ (readdir (c5FS ["a", "b"]) "/x/properties").1
      = .ok (some [".", "..", "a", "b"])
    ∧ ([".", "..", "b", "a"] : List String) ≠ [".", "..", "a", "b"] :=
  ⟨rfl, rfl, by simp⟩

/-- C5, amended: iteration over a node (`__iter__`) sorts the cached
keys with Python's case-*sensitive* (codepoint-lexicographic) `sorted`
and, after a refresh, yields each name at most once (the refreshed key
set is caselessly deduplicated); `readdir`, however, uses `keys()`
without sorting: it returns `"."`, `".."` and then the cache's keys in
backing-store enumeration order, slashes encoded. -/
theorem c5_amended {χ : Type} (items : List String) (d : TDict χ) (s : FS)
    (hd : d.cache = []) (hp : s.pdict = ⟨[]⟩) (ht : s.tmp = [])
    (hl : s.db.propList = items) :
    (iterKeys items d).1.Sorted (· ≤ ·)
    ∧ (iterKeys items d).1.Nodup
    ∧ (iterKeys items d).1.Perm (dedupCaseless [] items)
    ∧ (readdir s s.pdPath).1
        = .ok (some ([".", ".."] ++ (dedupCaseless [] items).map encodeSlash)) := by
  have hemp : d.cache.isEmpty = true := by simp [hd]
  have h1 : (iterKeys items d).1
      = List.insertionSort (· ≤ ·) (dedupCaseless [] items) := by
    simp [iterKeys, hemp, cacheKeys_refresh]
  refine ⟨?_, ?_, ?_, ?_⟩
  · rw [h1]; exact List.sorted_insertionSort _ _
  · rw [h1]
    exact (List.perm_insertionSort _ _).nodup_iff.mpr (dedupCaseless_nodup items)
  · rw [h1]; exact List.perm_insertionSort _ _
  · simp [readdir, ht, tmpGet, resolve, dictKeys, hp, hl, cacheKeys_refresh,
      enumLog]

theorem c5_amended_witness :
    ((⟨[]⟩ : TDict Nat).cache = [] ∧ (c5FS ["b", "a"]).pdict = ⟨[]⟩
      ∧ (c5FS ["b", "a"]).tmp = [] ∧ (c5FS ["b", "a"]).db.propList = ["b", "a"])
    ∧ ((iterKeys ["b", "a"] (⟨[]⟩ : TDict Nat)).1.Sorted (· ≤ ·)
      ∧ (iterKeys ["b", "a"] (⟨[]⟩ : TDict Nat)).1.Nodup
      ∧ (iterKeys ["b", "a"] (⟨[]⟩ : TDict Nat)).1.Perm
          (dedupCaseless [] ["b", "a"])
      ∧ (readdir (c5FS ["b", "a"]) (c5FS ["b", "a"]).pdPath).1
          = .ok (some ([".", ".."]
              ++ (dedupCaseless [] ["b", "a"]).map encodeSlash))) :=
  ⟨⟨rfl, rfl, rfl, rfl⟩,
   c5_amended ["b", "a"] ⟨[]⟩ (c5FS ["b", "a"]) rfl rfl rfl rfl⟩

/-! ## C2 — read after write on a Property Leaf -/

/-- C2, counterexample.  The claim says a write followed by a read
returns *exactly* the written content.  Writing the five bytes
`"hello"` (no trailing newline) to a property path and reading it back
yields `"hello\n"` — the payload is normalized (stripped, split into
lines, rejoined with a trailing newline), not returned verbatim. -/
theorem c2_counterexample :
    (read exe0 (write (c2FS [] none)
        "/sys/tg_test/1/properties/host" ['h', 'e', 'l', 'l', 'o'] 0).2.1
      "/sys/tg_test/1/properties/host" 4096 0).1
      = .ok (.bytes ['h', 'e', 'l', 'l', 'o', '\n'])
    ∧ (['h', 'e', 'l', 'l', 'o', '\n'] : Bytes) ≠ ['h', 'e', 'l', 'l', 'o'] :=
  ⟨rfl, by simp⟩

/-- C2, amended: with no buffered overlay payload for the path, a
`write(path, data, offset=0)` to a Property Leaf followed by a read of
the same path returns the *canonicalized* payload
`data.strip() + "\n"` (the property value is stored as
`data.strip().split("\n")` and read back newline-joined with a trailing
newline); the round trip is exact precisely when the payload is already
in that canonical form. -/
theorem c2_amended (data : Bytes) (vals : List (String × Lines))
    (cached : Option Lines) (sz off : Nat) :
    (read exe0 (write (c2FS vals cached)
        "/sys/tg_test/1/properties/host" data 0).2.1
      "/sys/tg_test/1/properties/host" sz off).1
      = .ok (.bytes (pyStrip data ++ ['\n']))
    ∧ ((read exe0 (write (c2FS vals cached)
          "/sys/tg_test/1/properties/host" data 0).2.1
        "/sys/tg_test/1/properties/host" sz off).1
        = .ok (.bytes data) ↔ data = pyStrip data ++ ['\n']) := by
  have h : (read exe0 (write (c2FS vals cached)
      "/sys/tg_test/1/properties/host" data 0).2.1
      "/sys/tg_test/1/properties/host" sz off).1
      = .ok (.bytes (joinNl (splitNl (pyStrip data)) ++ ['\n'])) := rfl
  rw [joinNl_splitNl] at h
  refine ⟨h, ?_⟩
  rw [h]
  simp only [Except.ok.injEq, PyVal.bytes.injEq]
  exact eq_comm

/-! ## C4 — metadata probe on a pending-create path -/

/-- C4, counterexample.  The claim says a getattr on a pending-create
path returns a synthetic zero-size regular file and the path *remains*
pending (the overlay entry is removed only by the completing call).  On
a pending `PROPERTY` creation the probe does return a zero-size regular
file with no backing-store call, but it *deletes* the overlay entry
itself: afterwards `tmp` is empty. -/
theorem c4_counterexample :
    getattr exe0 (c4FS .property) "/sys/tg_test/1/properties/np"
      = (.ok ⟨.reg, 0⟩, { c4FS .property with tmp := [] }, [])
    ∧ (c4FS .property).tmp ≠ [] :=
  ⟨rfl, by simp [c4FS]⟩

/-- C4, amended: a getattr on a pending-create path (resolution of the
path fails, the parent resolves) returns a synthetic placeholder and
performs no backing-store *mutation*: with a warm parent cache it makes
no backing-store call at all, while with a cold parent cache the failed
path resolution preceding the pending branch performs exactly one
read-only enumeration call.  For kind `PROPERTY` it returns a zero-size
regular file and *consumes* the overlay entry; for kind `SERVER` it
returns a synthetic *directory* and keeps the entry; for kind `CLASS`
it returns a zero-size regular file and keeps the entry. -/
theorem c4_amended (exe : String → String → Bytes) (s : FS) (path : String)
    (hne : (path == s.pdPath) = false)
    (hpar : (parentOf path == s.pdPath) = true) :
    (s.pdict.cache.isEmpty = false →
      cacheMem s.pdict (childOf path) = false →
      (tmpGet s.tmp path = some .property →
        getattr exe s path
          = (.ok ⟨.reg, 0⟩, { s with tmp := tmpRemove s.tmp path }, []))
      ∧ (tmpGet s.tmp path = some .server →
        getattr exe s path = (.ok ⟨.dir, 0⟩, s, []))
      ∧ (tmpGet s.tmp path = some .cls →
        getattr exe s path = (.ok ⟨.reg, 0⟩, s, [])))
    ∧ (s.pdict.cache.isEmpty = true →
      cacheMem (refresh s.db.propList s.pdict) (childOf path) = false →
      (tmpGet s.tmp path = some .property →
        getattr exe s path
          = (.ok ⟨.reg, 0⟩,
             { s with pdict := refresh s.db.propList s.pdict,
                      tmp := tmpRemove s.tmp path },
             [.enumProps s.pdDev]))
      ∧ (tmpGet s.tmp path = some .server →
        getattr exe s path
          = (.ok ⟨.dir, 0⟩, { s with pdict := refresh s.db.propList s.pdict },
             [.enumProps s.pdDev]))
      ∧ (tmpGet s.tmp path = some .cls →
        getattr exe s path
          = (.ok ⟨.reg, 0⟩, { s with pdict := refresh s.db.propList s.pdict },
             [.enumProps s.pdDev]))) := by
  constructor
  · intro hcne hmiss
    have hres : resolve s path = (.error .keyError, s, []) := by
      simp [resolve, hne, hpar, getitem, hcne, hmiss, enumLog]
    have hpres : resolve s (parentOf path) = (.ok .propsDict, s, []) := by
      simp [resolve, hpar]
    refine ⟨?_, ?_, ?_⟩ <;> intro h <;> simp [getattr, hres, hpres, h]
  · intro hcold hmiss
    have hres : resolve s path
        = (.error .keyError, { s with pdict := refresh s.db.propList s.pdict },
           [.enumProps s.pdDev]) := by
      simp [resolve, hne, hpar, getitem, hcold, hmiss, enumLog]
    have hpres : resolve { s with pdict := refresh s.db.propList s.pdict }
        (parentOf path)
        = (.ok .propsDict,
           { s with pdict := refresh s.db.propList s.pdict }, []) := by
      simp [resolve, hpar]
    refine ⟨?_, ?_, ?_⟩ <;> intro h <;> simp [getattr, hres, hpres, h]

/-- A cold-cache variant of `c4FS`: same pending overlay entry, empty
properties cache over a backing store that enumerates `["host"]`. -/
def c4FScold (marker : TmpVal) : FS :=
  { tmp := [("/sys/tg_test/1/properties/np", marker)], tree := [],
    pdPath := "/sys/tg_test/1/properties", pdDev := "sys/tg_test/1",
    pdict := ⟨[]⟩, db := ⟨["host"], []⟩ }

theorem c4_amended_witness :
    (("/sys/tg_test/1/properties/np"
          == (c4FS .property).pdPath) = false
      ∧ (parentOf "/sys/tg_test/1/properties/np"
          == (c4FS .property).pdPath) = true
      ∧ (c4FS .property).pdict.cache.isEmpty = false
      ∧ cacheMem (c4FS .property).pdict
          (childOf "/sys/tg_test/1/properties/np") = false
      ∧ tmpGet (c4FS .property).tmp "/sys/tg_test/1/properties/np"
          = some .property)
    ∧ getattr exe0 (c4FS .property) "/sys/tg_test/1/properties/np"
        = (.ok ⟨.reg, 0⟩,
           { c4FS .property with
              tmp := tmpRemove (c4FS .property).tmp
                "/sys/tg_test/1/properties/np" }, [])
    ∧ ((c4FScold .property).pdict.cache.isEmpty = true
      ∧ cacheMem (refresh (c4FScold .property).db.propList
            (c4FScold .property).pdict)
          (childOf "/sys/tg_test/1/properties/np") = false)
    ∧ getattr exe0 (c4FScold .property) "/sys/tg_test/1/properties/np"
        = (.ok ⟨.reg, 0⟩,
           { c4FScold .property with
              pdict := refresh (c4FScold .property).db.propList
                (c4FScold .property).pdict,
              tmp := tmpRemove (c4FScold .property).tmp
                "/sys/tg_test/1/properties/np" },
           [.enumProps (c4FScold .property).pdDev]) :=
  ⟨⟨rfl, rfl, rfl, rfl, rfl⟩,
   ((c4_amended exe0 (c4FS .property) "/sys/tg_test/1/properties/np"
      rfl rfl).1 rfl rfl).1 rfl,
   ⟨rfl, rfl⟩,
   ((c4_amended exe0 (c4FScold .property) "/sys/tg_test/1/properties/np"
      rfl rfl).2 rfl rfl).1 rfl⟩

/-! ## C7 — create immediately followed by unlink -/

/-- C7, counterexample.  The claim says create-then-unlink of a pending
path performs zero backing-store calls.  `create` itself performs none,
but `unlink`, after popping the overlay entry, resolves the path; with
a cold parent cache that resolution refreshes the properties cache —
one backing-store enumeration call — and the unlink ends in an uncaught
`KeyError`. -/
theorem c7_counterexample :
    (create c7cold "/s/i/C/d/properties/newprop").2.2 = []
    ∧ (unlink (create c7cold "/s/i/C/d/properties/newprop").2.1
        "/s/i/C/d/properties/newprop").2.2 = [.enumProps "dev"]
    ∧ (unlink (create c7cold "/s/i/C/d/properties/newprop").2.1
        "/s/i/C/d/properties/newprop").1 = .error (.exc .keyError)
    ∧ ([DbCall.enumProps "dev"] : List DbCall) ≠ [] :=
  ⟨rfl, rfl, rfl, by simp⟩

/-- C7, amended: `create` inserts the overlay entry with no
backing-store call; `unlink` pops it (the entry is discarded in every
case) and then resolves the path — with a *warm* parent cache the pair
performs zero backing-store calls (with a cold cache, one read-only
enumeration, as the counterexample shows), and `unlink` ends in an
uncaught `KeyError` since the pending path does not exist in the
tree. -/
theorem c7_amended (s : FS) (path : String)
    (hne : (path == s.pdPath) = false)
    (hpar : (parentOf path == s.pdPath) = true)
    (hcne : s.pdict.cache.isEmpty = false)
    (hmiss : cacheMem s.pdict (childOf path) = false) :
    (create s path).2.2 = []
    ∧ (unlink (create s path).2.1 path).2.2 = []
    ∧ (unlink (create s path).2.1 path).1 = .error (.exc .keyError)
    ∧ (unlink (create s path).2.1 path).2.1.tmp = tmpRemove s.tmp path := by
  cases hsed : sedtmpMatch (childOf path) <;>
    simp [create, hsed, unlink, tmpGet_tmpSet_self, tmpRemove_tmpSet_self,
      resolve, hne, hpar, getitem, hcne, hmiss, enumLog]

theorem c7_amended_witness :
    (("/s/i/C/d/properties/newprop" == c7warm.pdPath) = false
      ∧ (parentOf "/s/i/C/d/properties/newprop" == c7warm.pdPath) = true
      ∧ c7warm.pdict.cache.isEmpty = false
      ∧ cacheMem c7warm.pdict (childOf "/s/i/C/d/properties/newprop") = false)
    ∧ ((create c7warm "/s/i/C/d/properties/newprop").2.2 = []
      ∧ (unlink (create c7warm "/s/i/C/d/properties/newprop").2.1
          "/s/i/C/d/properties/newprop").2.2 = []
      ∧ (unlink (create c7warm "/s/i/C/d/properties/newprop").2.1
          "/s/i/C/d/properties/newprop").1 = .error (.exc .keyError)
      ∧ (unlink (create c7warm "/s/i/C/d/properties/newprop").2.1
          "/s/i/C/d/properties/newprop").2.1.tmp
          = tmpRemove c7warm.tmp "/s/i/C/d/properties/newprop") :=
  ⟨⟨rfl, rfl, rfl, rfl⟩,
   c7_amended c7warm "/s/i/C/d/properties/newprop" rfl rfl rfl rfl⟩

/-! ## C9 — read ignores size and offset, returning whole contents -/

/-- C9 (confirmed): `TangoFS.read` is independent of its `size` and
`offset` arguments, and returns whole contents: a buffered overlay
payload is returned entire (and popped), a resolved Property Leaf
returns the full newline-joined value with trailing newline, a resolved
Command Leaf the full script text. -/
theorem c9_read_whole (exe : String → String → Bytes) (s : FS)
    (path : String) (sz off szq offq : Nat) :
    read exe s path sz off = read exe s path szq offq
    ∧ (∀ b, tmpGet s.tmp path = some (.buf b) →
        read exe s path sz off
          = (.ok (.bytes b), { s with tmp := tmpRemove s.tmp path }, []))
    ∧ (∀ p s1 log, tmpGet s.tmp path = none →
        resolve s path = (.ok (.propLeaf p), s1, log) →
        (read exe s path sz off).1
          = .ok (.bytes (joinNl (propGetValue s1.db p).1 ++ ['\n'])))
    ∧ (∀ d c s1 log, tmpGet s.tmp path = none →
        resolve s path = (.ok (.cmdLeaf d c), s1, log) →
        (read exe s path sz off).1 = .ok (.bytes (exe d c))) := by
  refine ⟨rfl, ?_, ?_, ?_⟩
  · intro b hb
    simp [read, hb, tmpToPy]
  · intro p s1 log h1 h2
    simp [read, h1, h2]
  · intro d c s1 log h1 h2
    simp [read, h1, h2]

theorem c9_read_whole_witness :
    tmpGet [("/p", TmpVal.buf ['x'])] "/p" = some (.buf ['x'])
    ∧ read exe0
        { tmp := [("/p", TmpVal.buf ['x'])], tree := [], pdPath := "/q",
          pdDev := "d", pdict := ⟨[]⟩, db := ⟨[], []⟩ } "/p" 4096 17
      = (.ok (.bytes ['x']),
         { tmp := [], tree := [], pdPath := "/q", pdDev := "d",
           pdict := ⟨[]⟩, db := ⟨[], []⟩ }, []) :=
  ⟨rfl,
   (c9_read_whole exe0
      { tmp := [("/p", TmpVal.buf ['x'])], tree := [], pdPath := "/q",
        pdDev := "d", pdict := ⟨[]⟩, db := ⟨[], []⟩ }
      "/p" 4096 17 0 0).2.1 ['x'] rfl⟩

/-! ## C10 — unlink without an overlay entry -/

/-- C10 (confirmed): `unlink` starts with `self.tmp.pop(path)`, so on
any path with no overlay entry it raises an uncaught `KeyError` before
doing anything else — no backing-store call, no deletion, no
`FuseOSError(ENOENT)`; the state is unchanged. -/
theorem c10_unlink_keyerror (s : FS) (path : String)
    (h : tmpGet s.tmp path = none) :
    unlink s path = (.error (.exc .keyError), s, []) := by
  simp [unlink, h]

/-- Witness: the path resolves to an existing, deletable property
(`host` is materialized with a cached value), yet `unlink` raises
`KeyError` and performs no backing-store call because no `getattr`
populated the overlay first. -/
theorem c10_unlink_keyerror_witness :
    tmpGet (c2FS [] (some [['x']])).tmp "/sys/tg_test/1/properties/host"
      = none
    ∧ unlink (c2FS [] (some [['x']])) "/sys/tg_test/1/properties/host"
      = (.error (.exc .keyError), c2FS [] (some [['x']]), []) :=
  ⟨rfl, c10_unlink_keyerror _ _ rfl⟩

/-! ## C6 — renames -/

theorem mem_put_propList_self (db : Db) (n : String) (v : Lines) :
    n ∈ (db.put n v).propList := by
  simp only [Db.put]
  split
  · rename_i h
    simpa using h
  · exact List.mem_append_right _ (List.mem_singleton_self n)

theorem mem_put_propList_of_mem (db : Db) (n : String) (v : Lines)
    (a : String) (h : a ∈ db.propList) : a ∈ (db.put n v).propList := by
  simp only [Db.put]
  split
  · exact h
  · exact List.mem_append_left _ h

/-- C6, counterexample.  The claim says renaming an instance is
implemented as add-under-new-name followed by delete-under-old-name
with no atomic backing-store rename primitive.  `InstanceDict.rename`
issues exactly one call — the backing store's `rename_server`
primitive — not two. -/
theorem c6_counterexample :
    (instanceRename "TangoTest" "test" "prod" (⟨[]⟩ : TDict Nat)).2.2
      = [.renameServer "TangoTest/test" "TangoTest/prod"]
    ∧ (instanceRename "TangoTest" "test" "prod" (⟨[]⟩ : TDict Nat)).2.2.length
        ≠ 2 :=
  ⟨rfl, by simp [instanceRename, renameInstance]⟩

/-- C6, amended: renaming a *property* (with its value already cached)
issues exactly put-under-new-name followed by delete-under-old-name, in
that order; if the delete fails after a successful add, the old name
remains enumerable alongside the new one and the object keeps its old
name.  Renaming an *instance* instead issues a single atomic
`rename_server` backing-store call. -/
theorem c6_amended (dev old new : String) (v : Lines) (d : TDict PropObj)
    (db : Db) (hne : (new == old) = false) :
    (propRename dev ⟨dev, old, some v⟩ d db new true).log
      = [.putProp dev new v, .delProp dev old]
    ∧ (propRename dev ⟨dev, old, some v⟩ d db new true).obj.name = new
    ∧ (propRename dev ⟨dev, old, some v⟩ d db new false).log
      = [.putProp dev new v, .delProp dev old]
    ∧ (propRename dev ⟨dev, old, some v⟩ d db new false).raised
      = some .devFailed
    ∧ (propRename dev ⟨dev, old, some v⟩ d db new false).obj.name = old
    ∧ (old ∈ db.propList →
        old ∈ (propRename dev ⟨dev, old, some v⟩ d db new false).db.propList)
    ∧ new ∈ (propRename dev ⟨dev, old, some v⟩ d db new false).db.propList
    ∧ ∀ (srv a b : String) (c : TDict Nat),
        (instanceRename srv a b c).2.2
          = [.renameServer (srv ++ "/" ++ a) (srv ++ "/" ++ b)] := by
  refine ⟨?_, ?_, ?_, ?_, ?_, ?_, ?_, ?_⟩
  · simp [propRename, propGetValue, hne]
  · simp [propRename, propGetValue, hne]
  · simp [propRename, propGetValue, hne]
  · simp [propRename, propGetValue, hne]
  · simp [propRename, propGetValue, hne]
  · intro hmem
    simp only [propRename, hne, Bool.false_eq_true, if_false, propGetValue]
    exact mem_put_propList_of_mem db new v old hmem
  · simp only [propRename, hne, Bool.false_eq_true, if_false, propGetValue]
    exact mem_put_propList_self db new v
  · intro srv a b c
    rfl

theorem c6_amended_witness :
    (("new" == "old") = false ∧ "old" ∈ (⟨["old"], []⟩ : Db).propList)
    ∧ (propRename "dev" ⟨"dev", "old", some [['x']]⟩ ⟨[]⟩ ⟨["old"], []⟩
        "new" true).log = [.putProp "dev" "new" [['x']], .delProp "dev" "old"]
    ∧ "old" ∈ (propRename "dev" ⟨"dev", "old", some [['x']]⟩ ⟨[]⟩
        ⟨["old"], []⟩ "new" false).db.propList
    ∧ "new" ∈ (propRename "dev" ⟨"dev", "old", some [['x']]⟩ ⟨[]⟩
        ⟨["old"], []⟩ "new" false).db.propList :=
  ⟨⟨rfl, by simp⟩,
   (c6_amended "dev" "old" "new" [['x']] ⟨[]⟩ ⟨["old"], []⟩ rfl).1,
   (c6_amended "dev" "old" "new" [['x']] ⟨[]⟩ ⟨["old"], []⟩ rfl).2.2.2.2.2.1
     (by simp),
   (c6_amended "dev" "old" "new" [['x']] ⟨[]⟩ ⟨["old"], []⟩ rfl).2.2.2.2.2.2.1⟩

/-! ## C8 — unreachable devices -/

/-- C8, counterexample.  The claim's second half says listing the
attributes collection of an unreachable device returns an empty/omitted
set rather than raising.  With the device failing its ping, resolving
the `attributes` child raises `KeyError` (the device enumerates only
`properties`), which `readdir` does not catch — the listing *raises*
instead of returning an empty directory listing. -/
theorem c8_counterexample :
    readdirAttributes false (some []) ⟨[]⟩ = .error .keyError
    ∧ (Except.error PyExc.keyError : Except PyExc (List String))
        ≠ .ok [".", ".."] :=
  ⟨rfl, by simp⟩

/-- C8, amended: enumerating the children of a device whose ping fails
yields only `properties` (attributes and commands omitted); but
*listing the attributes collection* of such a device fails rather than
returning an empty set: with a cold device cache the lookup raises
`KeyError`; with a cache enumerated while the device was reachable the
`None` child makes `keys()` raise `AttributeError`; with a materialized
attributes node whose proxy enumeration fails, `DevFailed` propagates
(it is raised outside `readdir`'s `try`). -/
theorem c8_amended (attrList : Option (List String)) (dc : TDict DevChild)
    (hdc : dc.cache = []) :
    deviceChildren false = ["properties"]
    ∧ readdirAttributes false attrList dc = .error .keyError
    ∧ readdirAttributes false attrList (refresh (deviceChildren true) dc)
        = .error .attributeError
    ∧ readdirAttributes false none ⟨[("attributes", some .attrsD)]⟩
        = .error .devFailed := by
  obtain ⟨c⟩ := dc
  subst hdc
  exact ⟨rfl, rfl, rfl, rfl⟩

theorem c8_amended_witness :
    (⟨[]⟩ : TDict DevChild).cache = []
    ∧ deviceChildren false = ["properties"]
    ∧ readdirAttributes false (some ["ampli"]) ⟨[]⟩ = .error .keyError :=
  ⟨rfl, (c8_amended (some ["ampli"]) ⟨[]⟩ rfl).1,
   (c8_amended (some ["ampli"]) ⟨[]⟩ rfl).2.1⟩

end TangoFS
